import Mathlib

/-!
# Verification of the head-gesture streaming core

Shallow embedding of `src/assets/js/HeadGestureManager.js`:
the `Window` sliding buffer, the `SensorDataHandler` fixed-window
orchestrator, and the `processDataV2` anomaly segmenter.

Samples are modelled as rationals (the JS code performs only addition,
division, negation and order comparisons on sensor values).  A thrown
JS `Error` is modelled as an `Except` error value; the JS `null`
"no output yet" sentinel is `Option.none`; the `{NaN, NaN, NaN}`
feature triple returned for an empty axis is `Option.none` as well
(the code guards `getAxisFeatures` behind a non-emptiness test, so the
NaN triple is produced only in the empty-axis branch).
-/

namespace HeadGesture

/-- A triaxial sensor sample, JS object shape `{X, Y, Z}`. -/
structure Vec3 where
  X : ℚ
  Y : ℚ
  Z : ℚ
  deriving DecidableEq, Repr

/-- The two `Error`s thrown by `Window`:
`"Window is full"` (from `addData`) and `"Window is not full"` (from `slide`). -/
inductive WindowError where
  | capacityViolation
  | notReadyToSlide
  deriving DecidableEq, Repr

/-- `Window` class state: `windowSize`, `sensorType`, `overlapSize`
and the three per-axis data lists. -/
structure Window where
  windowSize : ℕ
  sensorType : String
  overlapSize : ℕ
  x : List ℚ
  y : List ℚ
  z : List ℚ
  deriving DecidableEq, Repr

/-- The `Window` constructor: empty axis lists. -/
def Window.make (windowSize : ℕ) (sensorType : String) (overlapSize : ℕ := 0) :
    Window :=
  ⟨windowSize, sensorType, overlapSize, [], [], []⟩

/-- `getLength()`: number of stored data points, based on the x-axis list. -/
def Window.getLength (w : Window) : ℕ := w.x.length

/-- `getMaxLength()`. -/
def Window.getMaxLength (w : Window) : ℕ := w.windowSize

/-- `isFull()`: `this.x.length >= this.windowSize`. -/
def Window.isFull (w : Window) : Bool := w.windowSize ≤ w.x.length

/-- `addData(x, y, z)`: throws `"Window is full"` when full, otherwise
pushes one value onto each axis list. -/
def Window.addData (w : Window) (x y z : ℚ) : Except WindowError Window :=
  if w.isFull then .error .capacityViolation
  else .ok { w with x := w.x ++ [x], y := w.y ++ [y], z := w.z ++ [z] }

/-- The `for` loop summation in `getAxisFeatures` (`sum += axisData[i]`). -/
def jsSum (l : List ℚ) : ℚ := l.foldl (· + ·) 0

/-- `Math.min(...axisData)` for the non-empty lists it is applied to
(the empty case, which would give `Infinity` in JS, is unreachable behind
the guard in `extractFeatures`; we return a junk value there). -/
def mathMin : List ℚ → ℚ
  | [] => 0
  | a :: as => as.foldl min a

/-- `Math.max(...axisData)`, same remarks as `mathMin`. -/
def mathMax : List ℚ → ℚ
  | [] => 0
  | a :: as => as.foldl max a

/-- The `{mean, min, max}` record computed by `getAxisFeatures`. -/
structure AxisStats where
  mean : ℚ
  min : ℚ
  max : ℚ
  deriving DecidableEq, Repr

/-- `getAxisFeatures(axisData)`: mean by summation loop then division,
min/max by `Math.min`/`Math.max` over the spread. -/
def Window.getAxisFeatures (_w : Window) (axisData : List ℚ) : AxisStats :=
  ⟨jsSum axisData / (axisData.length : ℚ), mathMin axisData, mathMax axisData⟩

/-- Per-sensor feature record: one `{mean,min,max}` per axis;
`none` models the `{NaN, NaN, NaN}` sentinel for an empty axis. -/
structure SensorFeatures where
  x : Option AxisStats
  y : Option AxisStats
  z : Option AxisStats
  deriving DecidableEq, Repr

/-- `extractFeatures()`: JS truthiness of `this.x.length` guards each axis. -/
def Window.extractFeatures (w : Window) : SensorFeatures :=
  ⟨if w.x.length = 0 then none else some (w.getAxisFeatures w.x),
   if w.y.length = 0 then none else some (w.getAxisFeatures w.y),
   if w.z.length = 0 then none else some (w.getAxisFeatures w.z)⟩

/-- JS `Array.prototype.slice(start)` with a single, possibly negative,
start index: a negative start counts from the end (clamped at 0). -/
def jsSlice (l : List ℚ) (start : Int) : List ℚ :=
  if start < 0 then l.drop (l.length - start.natAbs) else l.drop start.toNat

/-- `slide()`: throws `"Window is not full"` when `x.length < windowSize`,
otherwise replaces each axis list by `list.slice(windowSize - overlapSize)`. -/
def Window.slide (w : Window) : Except WindowError Window :=
  if w.x.length < w.windowSize then .error .notReadyToSlide
  else .ok { w with
    x := jsSlice w.x ((w.windowSize : Int) - (w.overlapSize : Int)),
    y := jsSlice w.y ((w.windowSize : Int) - (w.overlapSize : Int)),
    z := jsSlice w.z ((w.windowSize : Int) - (w.overlapSize : Int)) }

/-- `SensorDataHandler`: one accelerometer window, one gyroscope window. -/
structure SensorDataHandler where
  accWindow : Window
  gyroWindow : Window
  deriving DecidableEq, Repr

/-- The `SensorDataHandler` constructor: two windows with identical
`windowSize`/`overlapSize`. -/
def SensorDataHandler.make (windowSize overlapSize : ℕ) : SensorDataHandler :=
  ⟨Window.make windowSize "accelerometer" overlapSize,
   Window.make windowSize "gyroscope" overlapSize⟩

/-- The combined per-call feature summary. -/
structure Features where
  accelerometer : SensorFeatures
  gyroscope : SensorFeatures
  deriving DecidableEq, Repr

/-- `handleData(acc, gyro)`: adds one 3-component sample to each window
(a thrown error propagates); if both windows are then full, extracts
features from both, slides both, and returns the summary; otherwise
returns `null` (modelled `none`).  The returned handler is the updated
object state. -/
def SensorDataHandler.handleData (h : SensorDataHandler)
    (acc gyro : ℚ × ℚ × ℚ) :
    Except WindowError (Option Features × SensorDataHandler) :=
  match h.accWindow.addData acc.1 acc.2.1 acc.2.2 with
  | .error e => .error e
  | .ok accW =>
    match h.gyroWindow.addData gyro.1 gyro.2.1 gyro.2.2 with
    | .error e => .error e
    | .ok gyroW =>
      if accW.isFull && gyroW.isFull then
        match accW.slide with
        | .error e => .error e
        | .ok accW2 =>
          match gyroW.slide with
          | .error e => .error e
          | .ok gyroW2 =>
            .ok (some ⟨accW.extractFeatures, gyroW.extractFeatures⟩,
                 ⟨accW2, gyroW2⟩)
      else
        .ok (none, ⟨accW, gyroW⟩)

/-- Feed a list of (acc, gyro) sample pairs through `handleData`,
collecting the per-call results; a thrown error aborts the run. -/
def handlerRun (h : SensorDataHandler) :
    List ((ℚ × ℚ × ℚ) × (ℚ × ℚ × ℚ)) →
    Except WindowError (List (Option Features) × SensorDataHandler)
  | [] => .ok ([], h)
  | i :: is =>
    match h.handleData i.1 i.2 with
    | .error e => .error e
    | .ok (o, h') =>
      match handlerRun h' is with
      | .error e => .error e
      | .ok (os, h'') => .ok (o :: os, h'')

/-- The module-level constants configuring `processDataV2`, gathered as a
parameter record so the segmenter theorems can be stated for any
threshold configuration; `defaultSegParams` below holds the source's
literal values. -/
structure SegParams where
  gyroscopeYThreshold : ℚ
  anomalyEndThresholdLow : ℚ
  anomalyEndThresholdHigh : ℚ
  startThresholdCount : ℕ
  minimumAnomalyLength : ℕ
  counterThreshold : ℕ
  deriving DecidableEq, Repr

/-- The constants of the source file:
`gyroscopeYThreshold = 1.5`, `anomalyEndThresholdLow = -1`,
`anomalyEndThresholdHigh = 1`, `startThresholdCount = 1`,
`minimumAnomalyLength = 20`, `counterThreshold = 5`. -/
def defaultSegParams : SegParams :=
  { gyroscopeYThreshold := 3 / 2
    anomalyEndThresholdLow := -1
    anomalyEndThresholdHigh := 1
    startThresholdCount := 1
    minimumAnomalyLength := 20
    counterThreshold := 5 }

/-- The module-level mutable state used by `processDataV2`. -/
structure SegState where
  accSequence : List ℚ
  gyroSequence : List ℚ
  collectingData : Bool
  inThresholdCounter : ℕ
  aboveThresholdCounter : ℕ
  deriving DecidableEq, Repr

/-- The initial values of the module-level state. -/
def segInit : SegState :=
  { accSequence := []
    gyroSequence := []
    collectingData := false
    inThresholdCounter := 0
    aboveThresholdCounter := 0 }

/-- `processDataV2(accData, gyroData)` as a state transformer, returning
the updated state and the sequence handed to `makePredictionV2` when a
qualifying capture closes on this step (`none` otherwise). -/
def processDataV2 (p : SegParams) (s : SegState) (accData gyroData : Vec3) :
    SegState × Option (List ℚ) :=
  -- if (Math.abs(gyroData.Y) > gyroscopeYThreshold) ... else ... = 0
  let s1 := if p.gyroscopeYThreshold < |gyroData.Y| then
      { s with aboveThresholdCounter := s.aboveThresholdCounter + 1 }
    else
      { s with aboveThresholdCounter := 0 }
  -- if (aboveThresholdCounter >= startThresholdCount) { if (!collectingData) {...} }
  let s2 := if p.startThresholdCount ≤ s1.aboveThresholdCounter ∧
      s1.collectingData = false then
      { s1 with collectingData := true, accSequence := [], gyroSequence := [],
                inThresholdCounter := 0 }
    else s1
  if s2.collectingData then
    -- gyroSequence.push(-gyroData.Y); accSequence.push(accData.X)
    let s3 := { s2 with gyroSequence := s2.gyroSequence ++ [-gyroData.Y],
                        accSequence := s2.accSequence ++ [accData.X] }
    -- if (anomalyEndThresholdLow <= gyroData.Y && gyroData.Y <= anomalyEndThresholdHigh)
    let s4 := if p.anomalyEndThresholdLow ≤ gyroData.Y ∧
        gyroData.Y ≤ p.anomalyEndThresholdHigh then
        { s3 with inThresholdCounter := s3.inThresholdCounter + 1 }
      else
        { s3 with inThresholdCounter := 0 }
    -- if (inThresholdCounter >= counterThreshold) { stop; maybe emit; clear }
    if p.counterThreshold ≤ s4.inThresholdCounter then
      let out := if p.minimumAnomalyLength ≤ s4.gyroSequence.length then
          some (s4.gyroSequence ++ s4.accSequence)
        else none
      ({ s4 with collectingData := false, accSequence := [], gyroSequence := [] },
       out)
    else (s4, none)
  else (s2, none)

/-- Feed a list of (accData, gyroData) sample pairs through
`processDataV2`, collecting the per-step emissions. -/
def segSteps (p : SegParams) (s : SegState) :
    List (Vec3 × Vec3) → SegState × List (Option (List ℚ))
  | [] => (s, [])
  | i :: is =>
    let r := processDataV2 p s i.1 i.2
    let rest := segSteps p r.1 is
    (rest.1, r.2 :: rest.2)

/-- Feed a list of `(x, y, z)` samples through `addData` one at a time,
with a thrown error aborting the run (no intervening `slide`). -/
def addSeq (w : Window) : List (ℚ × ℚ × ℚ) → Except WindowError Window
  | [] => .ok w
  | s :: rest =>
    match w.addData s.1 s.2.1 s.2.2 with
    | .error e => .error e
    | .ok w' => addSeq w' rest

/-- One client operation on a `Window`. -/
inductive WinOp where
  | add (x y z : ℚ)
  | slide
  | extract
  deriving DecidableEq, Repr

/-- Apply one operation to a `Window`.  In the JS source both `addData`
and `slide` throw *before* mutating anything, so a failing operation
leaves the window unchanged; `extractFeatures` only reads the axis
lists (`Window.extractFeatures` is a pure function of the window in
this embedding), so `extract` leaves the state untouched. -/
def applyOp (w : Window) : WinOp → Window
  | .add x y z =>
    match w.addData x y z with
    | .ok w' => w'
    | .error _ => w
  | .slide =>
    match w.slide with
    | .ok w' => w'
    | .error _ => w
  | .extract => w

/-- The data-model invariant of §3: the three axis lists move in
lock-step and the current length never exceeds the capacity
(`0 ≤ currentLength` is inherent in `ℕ`). -/
def WindowInv (w : Window) : Prop :=
  w.y.length = w.x.length ∧ w.z.length = w.x.length ∧
  w.x.length ≤ w.windowSize

/-- Specification of one axis' feature extraction: the not-a-number
sentinel (`none`) exactly on an empty axis; otherwise mean, min and max
over all currently buffered samples — the mean is the arithmetic
average (`mean · length = sum`), min/max are attained elements that
bound every buffered sample. -/
def AxisFeatureSpec (l : List ℚ) (f : Option AxisStats) : Prop :=
  (l = [] → f = none) ∧
  (l ≠ [] → ∃ st, f = some st ∧
    st.mean * (l.length : ℚ) = l.sum ∧
    st.min ∈ l ∧ (∀ a ∈ l, st.min ≤ a) ∧
    st.max ∈ l ∧ (∀ a ∈ l, a ≤ st.max))

/-- A sample pair is "above threshold" when the gyroscope-Y magnitude
exceeds the excursion threshold (`Math.abs(gyroData.Y) > gyroscopeYThreshold`). -/
def aboveThr (p : SegParams) (i : Vec3 × Vec3) : Prop :=
  p.gyroscopeYThreshold < |i.2.Y|

instance (p : SegParams) (i : Vec3 × Vec3) : Decidable (aboveThr p i) :=
  inferInstanceAs (Decidable (_ < _))

/-- The input list contains a run of `L` consecutive above-threshold
samples. -/
def hasRun (p : SegParams) (L : ℕ) (ins : List (Vec3 × Vec3)) : Prop :=
  ∃ pre mid post, ins = pre ++ mid ++ post ∧ mid.length = L ∧
    ∀ i ∈ mid, aboveThr p i

/-- The value of `aboveThresholdCounter` after feeding `ins`: the length
of the maximal all-above-threshold suffix of `ins`. -/
def trailCount (p : SegParams) (ins : List (Vec3 × Vec3)) : ℕ :=
  ins.foldl (fun c i => if aboveThr p i then c + 1 else 0) 0

/-- The contiguous slice of the input stream from step `j` up to and
including step `k` (0-indexed): the capture window of an emission at
step `k` that opened at step `j`. -/
def captureSlice (ins : List (Vec3 × Vec3)) (k j : ℕ) : List (Vec3 × Vec3) :=
  (ins.take (k + 1)).drop j

/-- Invariant tying the segmenter state to the already-processed input
prefix: while collecting, the two sequences are exactly the negated
gyroscope-Y values and the accelerometer-X values of the samples fed
since the capture opened (at some index `j`), in arrival order. -/
def SegCaptureInv (_p : SegParams) (processed : List (Vec3 × Vec3))
    (s : SegState) : Prop :=
  s.collectingData = true →
  ∃ j, j ≤ processed.length ∧
    s.gyroSequence = (processed.drop j).map (fun i => -(i.2.Y)) ∧
    s.accSequence = (processed.drop j).map (fun i => i.1.X)

/-- Invariant for the fixed-window pipeline: both windows carry capacity
`C` and overlap `V`, and all six axis lists have length `L`. -/
def HInv (C V L : ℕ) (h : SensorDataHandler) : Prop :=
  h.accWindow.windowSize = C ∧ h.accWindow.overlapSize = V ∧
  h.gyroWindow.windowSize = C ∧ h.gyroWindow.overlapSize = V ∧
  h.accWindow.x.length = L ∧ h.accWindow.y.length = L ∧
  h.accWindow.z.length = L ∧
  h.gyroWindow.x.length = L ∧ h.gyroWindow.y.length = L ∧
  h.gyroWindow.z.length = L

/-- Concrete five-sample feed used by a witness. -/
def fiveSamples : List ((ℚ × ℚ × ℚ) × (ℚ × ℚ × ℚ)) :=
  List.replicate 5 ((0, 0, 0), (0, 0, 0))

/-- Concrete three-sample feed used by a witness. -/
def threeSamples : List ((ℚ × ℚ × ℚ) × (ℚ × ℚ × ℚ)) :=
  List.replicate 3 ((1, 2, 3), (4, 5, 6))

/-! ## Basic `Window` lemmas -/

theorem isFull_false (w : Window) (h : w.x.length < w.windowSize) :
    w.isFull = false := by
  simp only [Window.isFull, decide_eq_false_iff_not]
  omega

theorem isFull_true (w : Window) (h : w.windowSize ≤ w.x.length) :
    w.isFull = true := by
  simp only [Window.isFull, decide_eq_true_eq]
  exact h

theorem addData_ok (w : Window) (h : w.x.length < w.windowSize) (a b c : ℚ) :
    w.addData a b c =
      .ok { w with x := w.x ++ [a], y := w.y ++ [b], z := w.z ++ [c] } := by
  simp [Window.addData, isFull_false w h]

theorem addData_full (w : Window) (h : w.windowSize ≤ w.x.length) (a b c : ℚ) :
    w.addData a b c = .error .capacityViolation := by
  simp [Window.addData, isFull_true w h]

theorem jsSlice_of_le (l : List ℚ) (C V : ℕ) (h : V ≤ C) :
    jsSlice l ((C : Int) - (V : Int)) = l.drop (C - V) := by
  unfold jsSlice
  rw [if_neg (by omega)]
  congr 1
  omega

theorem slide_ok (w : Window) (h : w.windowSize ≤ w.x.length)
    (hov : w.overlapSize ≤ w.windowSize) :
    w.slide = .ok { w with
      x := w.x.drop (w.windowSize - w.overlapSize),
      y := w.y.drop (w.windowSize - w.overlapSize),
      z := w.z.drop (w.windowSize - w.overlapSize) } := by
  simp only [Window.slide, if_neg (by omega : ¬ w.x.length < w.windowSize),
    jsSlice_of_le _ _ _ hov]

theorem slide_not_full (w : Window) (h : w.x.length < w.windowSize) :
    w.slide = .error .notReadyToSlide := by
  simp [Window.slide, h]

/-- **C4** — `slide()` on a window whose current length equals the
capacity `C` succeeds and leaves every axis list with exactly the last
`overlap` elements of its pre-slide contents, in original order (the
pre-slide list is the dropped prefix followed by the post-slide list);
`slide()` on a not-yet-full window fails with the not-ready error and,
the error being thrown before any mutation, leaves the window
unchanged. -/
theorem slide_spec (w : Window)
    (hxy : w.y.length = w.x.length) (hxz : w.z.length = w.x.length)
    (hov : w.overlapSize < w.windowSize) :
    (w.getLength = w.windowSize →
      ∃ w', w.slide = .ok w' ∧
        w'.x.length = w.overlapSize ∧ w'.y.length = w.overlapSize ∧
        w'.z.length = w.overlapSize ∧
        w.x = w.x.take (w.windowSize - w.overlapSize) ++ w'.x ∧
        w.y = w.y.take (w.windowSize - w.overlapSize) ++ w'.y ∧
        w.z = w.z.take (w.windowSize - w.overlapSize) ++ w'.z) ∧
    (w.getLength < w.windowSize → w.slide = .error .notReadyToSlide) := by
  unfold Window.getLength
  constructor
  · intro hfull
    refine ⟨_, slide_ok w (by omega) (by omega), ?_, ?_, ?_,
      (List.take_append_drop _ _).symm, (List.take_append_drop _ _).symm,
      (List.take_append_drop _ _).symm⟩
    all_goals simp only [List.length_drop]
    all_goals omega
  · exact slide_not_full w

/-- Witness for C4 at a concrete full window of capacity 2, overlap 1. -/
theorem slide_spec_witness :
    ∃ w', Window.slide ⟨2, "w", 1, [3, 4], [5, 6], [7, 8]⟩ = .ok w' ∧
      w'.x.length = 1 ∧ w'.y.length = 1 ∧ w'.z.length = 1 ∧
      ([3, 4] : List ℚ) = ([3, 4] : List ℚ).take (2 - 1) ++ w'.x ∧
      ([5, 6] : List ℚ) = ([5, 6] : List ℚ).take (2 - 1) ++ w'.y ∧
      ([7, 8] : List ℚ) = ([7, 8] : List ℚ).take (2 - 1) ++ w'.z :=
  (slide_spec ⟨2, "w", 1, [3, 4], [5, 6], [7, 8]⟩ (by decide) (by decide)
    (by decide)).1 (by decide)

/-! ## `addData` sequences -/

theorem addSeq_ok (l : List (ℚ × ℚ × ℚ)) : ∀ w : Window,
    w.x.length + l.length ≤ w.windowSize →
    ∃ w', addSeq w l = .ok w' ∧ w'.x.length = w.x.length + l.length ∧
      w'.windowSize = w.windowSize := by
  induction l with
  | nil =>
    intro w _
    exact ⟨w, rfl, by simp, rfl⟩
  | cons s rest ih =>
    intro w h
    simp only [List.length_cons] at h
    rw [addSeq, addData_ok w (by omega)]
    obtain ⟨w', hw', hlen, hsz⟩ :=
      ih { w with x := w.x ++ [s.1], y := w.y ++ [s.2.1], z := w.z ++ [s.2.2] }
        (by simp only [List.length_append, List.length_cons, List.length_nil]
            omega)
    refine ⟨w', hw', ?_, by simpa using hsz⟩
    simp only [List.length_append, List.length_cons, List.length_nil] at hlen
    simp only [List.length_cons]
    omega

theorem addSeq_overflow (l : List (ℚ × ℚ × ℚ)) : ∀ w : Window,
    w.x.length ≤ w.windowSize → w.windowSize < w.x.length + l.length →
    addSeq w l = .error .capacityViolation := by
  induction l with
  | nil =>
    intro w h1 h2
    simp only [List.length_nil] at h2
    omega
  | cons s rest ih =>
    intro w h1 h2
    simp only [List.length_cons] at h2
    by_cases hf : w.windowSize ≤ w.x.length
    · rw [addSeq, addData_full w hf]
    · rw [addSeq, addData_ok w (by omega)]
      exact ih _ (by simp; omega) (by simp; omega)

/-- **C5** — for every window capacity `C` and overlap `V`: feeding `n`
samples one at a time into a fresh window succeeds when `n ≤ C` and
leaves `getLength() = min(n, C)`; a longer sequence fails with the
capacity-violation error; each individual `addData` with current length
below capacity appends exactly one value per axis; and `addData` on a
window whose length equals the capacity fails with the
capacity-violation error (thrown before any mutation, so the window is
unchanged). -/
theorem addData_spec (C V : ℕ) (l : List (ℚ × ℚ × ℚ)) :
    (l.length ≤ C →
      ∃ w', addSeq (Window.make C "accelerometer" V) l = .ok w' ∧
        w'.getLength = min l.length C) ∧
    (C < l.length →
      addSeq (Window.make C "accelerometer" V) l = .error .capacityViolation) ∧
    (∀ w : Window, w.getLength < w.windowSize → ∀ a b c : ℚ,
      ∃ w', w.addData a b c = .ok w' ∧ w'.x = w.x ++ [a] ∧
        w'.y = w.y ++ [b] ∧ w'.z = w.z ++ [c]) ∧
    (∀ w : Window, w.getLength = w.windowSize → ∀ a b c : ℚ,
      w.addData a b c = .error .capacityViolation) := by
  refine ⟨?_, ?_, ?_, ?_⟩
  · intro h
    obtain ⟨w', hw', hlen, _⟩ :=
      addSeq_ok l (Window.make C "accelerometer" V) (by simp [Window.make]; omega)
    refine ⟨w', hw', ?_⟩
    simp [Window.make] at hlen
    simp [Window.getLength, hlen]
    omega
  · intro h
    exact addSeq_overflow l (Window.make C "accelerometer" V)
      (by simp [Window.make]) (by simp [Window.make]; omega)
  · intro w hlen a b c
    exact ⟨_, addData_ok w hlen a b c, rfl, rfl, rfl⟩
  · intro w hlen a b c
    exact addData_full w (le_of_eq hlen.symm) a b c

/-- Witness for C5 at `C = 2`, `V = 0` and a concrete 2-sample feed. -/
theorem addData_spec_witness :
    ∃ w', addSeq (Window.make 2 "accelerometer" 0) [(1, 2, 3), (4, 5, 6)] =
      .ok w' ∧ w'.getLength = min 2 2 :=
  (addData_spec 2 0 [(1, 2, 3), (4, 5, 6)]).1 (by decide)

/-! ## The window invariant (C9) -/

theorem jsSlice_length (l : List ℚ) (st : Int) :
    (jsSlice l st).length =
      l.length - (if st < 0 then l.length - st.natAbs else st.toNat) := by
  unfold jsSlice
  split <;> simp

theorem applyOp_preserves (w : Window) (op : WinOp) (h : WindowInv w) :
    WindowInv (applyOp w op) := by
  obtain ⟨hxy, hxz, hcap⟩ := h
  cases op with
  | add a b c =>
    by_cases hf : w.windowSize ≤ w.x.length
    · simp [applyOp, addData_full w hf, WindowInv, hxy, hxz, hcap]
    · simp only [applyOp, addData_ok w (by omega)]
      refine ⟨by simp [hxy], by simp [hxz], by simp; omega⟩
  | slide =>
    by_cases hf : w.x.length < w.windowSize
    · simp [applyOp, slide_not_full w hf, WindowInv, hxy, hxz, hcap]
    · simp only [applyOp, Window.slide, if_neg hf]
      refine ⟨?_, ?_, ?_⟩
      all_goals simp only [jsSlice_length, hxy, hxz]
      all_goals try omega
  | extract =>
    exact ⟨hxy, hxz, hcap⟩

/-- **C9** — for every capacity, overlap and sequence of
`addData`/`slide`/`extractFeatures` operations (successful or failing),
the window reached from a fresh window satisfies the data-model
invariant: the three axis lists have equal length and
`currentLength ≤ capacity` (`0 ≤ currentLength` holds inherently in
`ℕ`).  A failing `addData`/`slide` throws before mutating, so it
preserves the state; `extractFeatures` only reads it. -/
theorem window_invariant (C V : ℕ) (sensor : String) (ops : List WinOp) :
    WindowInv (ops.foldl applyOp (Window.make C sensor V)) := by
  have run : ∀ (l : List WinOp) (w : Window), WindowInv w →
      WindowInv (l.foldl applyOp w) := by
    intro l
    induction l with
    | nil => intro w h; exact h
    | cons op rest ih =>
      intro w h
      exact ih _ (applyOp_preserves w op h)
  exact run ops _ ⟨rfl, rfl, by simp [Window.make]⟩

/-! ## Feature extraction (C6) -/

theorem jsSum_eq_sum (l : List ℚ) : jsSum l = l.sum :=
  (List.sum_eq_foldl (l := l)).symm

theorem foldl_min_le_init (as : List ℚ) : ∀ a : ℚ, as.foldl min a ≤ a := by
  induction as with
  | nil => intro a; exact le_rfl
  | cons c cs ih =>
    intro a
    calc (c :: cs).foldl min a = cs.foldl min (min a c) := rfl
    _ ≤ min a c := ih _
    _ ≤ a := min_le_left _ _

theorem foldl_min_le_mem (as : List ℚ) :
    ∀ a b : ℚ, b ∈ as → as.foldl min a ≤ b := by
  induction as with
  | nil => intro a b hb; cases hb
  | cons c cs ih =>
    intro a b hb
    rcases List.mem_cons.mp hb with rfl | hb
    · calc cs.foldl min (min a b) ≤ min a b := foldl_min_le_init _ _
      _ ≤ b := min_le_right _ _
    · exact ih _ b hb

theorem foldl_min_mem (as : List ℚ) : ∀ a : ℚ, as.foldl min a ∈ a :: as := by
  induction as with
  | nil => intro a; exact List.mem_singleton.mpr rfl
  | cons c cs ih =>
    intro a
    have h := ih (min a c)
    rcases List.mem_cons.mp h with heq | hmem
    · rcases min_choice a c with hac | hac
      · exact List.mem_cons.mpr (Or.inl (heq.trans hac))
      · refine List.mem_cons.mpr (Or.inr ?_)
        exact List.mem_cons.mpr (Or.inl (heq.trans hac))
    · exact List.mem_cons.mpr (Or.inr (List.mem_cons.mpr (Or.inr hmem)))

theorem foldl_max_init_le (as : List ℚ) : ∀ a : ℚ, a ≤ as.foldl max a := by
  induction as with
  | nil => intro a; exact le_rfl
  | cons c cs ih =>
    intro a
    calc a ≤ max a c := le_max_left _ _
    _ ≤ cs.foldl max (max a c) := ih _
    _ = (c :: cs).foldl max a := rfl

theorem foldl_max_mem_le (as : List ℚ) :
    ∀ a b : ℚ, b ∈ as → b ≤ as.foldl max a := by
  induction as with
  | nil => intro a b hb; cases hb
  | cons c cs ih =>
    intro a b hb
    rcases List.mem_cons.mp hb with rfl | hb
    · calc b ≤ max a b := le_max_right _ _
      _ ≤ cs.foldl max (max a b) := foldl_max_init_le _ _
    · exact ih _ b hb

theorem foldl_max_mem (as : List ℚ) : ∀ a : ℚ, as.foldl max a ∈ a :: as := by
  induction as with
  | nil => intro a; exact List.mem_singleton.mpr rfl
  | cons c cs ih =>
    intro a
    have h := ih (max a c)
    rcases List.mem_cons.mp h with heq | hmem
    · rcases max_choice a c with hac | hac
      · exact List.mem_cons.mpr (Or.inl (heq.trans hac))
      · refine List.mem_cons.mpr (Or.inr ?_)
        exact List.mem_cons.mpr (Or.inl (heq.trans hac))
    · exact List.mem_cons.mpr (Or.inr (List.mem_cons.mpr (Or.inr hmem)))

theorem mathMin_mem (l : List ℚ) (h : l ≠ []) : mathMin l ∈ l := by
  match l with
  | a :: as => exact foldl_min_mem as a

theorem mathMin_le (l : List ℚ) (b : ℚ) (hb : b ∈ l) : mathMin l ≤ b := by
  match l with
  | a :: as =>
    rcases List.mem_cons.mp hb with rfl | hb
    · exact foldl_min_le_init as b
    · exact foldl_min_le_mem as a b hb

theorem mathMax_mem (l : List ℚ) (h : l ≠ []) : mathMax l ∈ l := by
  match l with
  | a :: as => exact foldl_max_mem as a

theorem le_mathMax (l : List ℚ) (b : ℚ) (hb : b ∈ l) : b ≤ mathMax l := by
  match l with
  | a :: as =>
    rcases List.mem_cons.mp hb with rfl | hb
    · exact foldl_max_init_le as b
    · exact foldl_max_mem_le as a b hb

theorem axis_spec (w : Window) (l : List ℚ) :
    AxisFeatureSpec l
      (if l.length = 0 then none else some (w.getAxisFeatures l)) := by
  constructor
  · intro h
    simp [h]
  · intro h
    rw [if_neg (by simpa using h)]
    refine ⟨_, rfl, ?_, mathMin_mem l h, fun a ha => mathMin_le l a ha,
      mathMax_mem l h, fun a ha => le_mathMax l a ha⟩
    show jsSum l / (l.length : ℚ) * (l.length : ℚ) = l.sum
    rw [jsSum_eq_sum, div_mul_cancel₀]
    exact_mod_cast List.length_pos.mpr h |>.ne'

/-- **C6** — `extractFeatures()` returns, for each non-empty axis, the
mean/min/max computed over all currently buffered samples of that axis
(the mean is the arithmetic average, min and max are attained bounds),
and the not-a-number sentinel triple (modelled `none`) for each empty
axis; the concrete window `[1,2,3]` yields `mean = 2, min = 1, max = 3`.
The call never modifies the window: in this embedding
`Window.extractFeatures : Window → SensorFeatures` is a pure observer
with no state output. -/
theorem extractFeatures_spec (w : Window) :
    AxisFeatureSpec w.x w.extractFeatures.x ∧
    AxisFeatureSpec w.y w.extractFeatures.y ∧
    AxisFeatureSpec w.z w.extractFeatures.z ∧
    (Window.extractFeatures ⟨3, "demo", 0, [1, 2, 3], [], []⟩).x =
      some ⟨2, 1, 3⟩ ∧
    (Window.extractFeatures ⟨3, "demo", 0, [1, 2, 3], [], []⟩).y = none := by
  refine ⟨axis_spec w w.x, axis_spec w w.y, axis_spec w w.z, ?_, by rfl⟩
  show some (Window.getAxisFeatures _ [1, 2, 3]) = some ⟨2, 1, 3⟩
  unfold Window.getAxisFeatures
  norm_num [jsSum, mathMin, mathMax]

/-- Witness for C6 on the concrete window holding `[1,2,3]` on the x
axis and nothing on the y axis. -/
theorem extractFeatures_spec_witness :
    ∃ st, (Window.extractFeatures ⟨3, "demo", 0, [1, 2, 3], [], []⟩).x =
        some st ∧
      st.mean * (([1, 2, 3] : List ℚ).length : ℚ) = ([1, 2, 3] : List ℚ).sum ∧
      st.min ∈ ([1, 2, 3] : List ℚ) ∧
      (∀ a ∈ ([1, 2, 3] : List ℚ), st.min ≤ a) ∧
      st.max ∈ ([1, 2, 3] : List ℚ) ∧
      (∀ a ∈ ([1, 2, 3] : List ℚ), a ≤ st.max) :=
  (extractFeatures_spec ⟨3, "demo", 0, [1, 2, 3], [], []⟩).1.2 (by decide)

/-! ## Step-shape lemmas for `processDataV2`

Exactly one of the following four lemmas applies to any step, according
to the pre-state (`IDLE`/`COLLECTING`) and the decisive counter test. -/

theorem step_idle_stay (p : SegParams) (s : SegState) (acc gyro : Vec3)
    (hcol : s.collectingData = false)
    (hcnt : (if p.gyroscopeYThreshold < |gyro.Y| then
        s.aboveThresholdCounter + 1 else 0) < p.startThresholdCount) :
    processDataV2 p s acc gyro =
      ({ s with aboveThresholdCounter :=
          if p.gyroscopeYThreshold < |gyro.Y| then
            s.aboveThresholdCounter + 1 else 0 }, none) := by
  by_cases habove : p.gyroscopeYThreshold < |gyro.Y|
  · rw [if_pos habove] at hcnt
    have h2 : ¬ p.startThresholdCount ≤ s.aboveThresholdCounter + 1 := by omega
    simp [processDataV2, habove, h2, hcol]
  · rw [if_neg habove] at hcnt
    have h2 : ¬ p.startThresholdCount ≤ 0 := by omega
    simp [processDataV2, habove, h2, hcol]

theorem step_open (p : SegParams) (s : SegState) (acc gyro : Vec3)
    (hcol : s.collectingData = false)
    (hcnt : p.startThresholdCount ≤ (if p.gyroscopeYThreshold < |gyro.Y| then
        s.aboveThresholdCounter + 1 else 0)) :
    processDataV2 p s acc gyro =
      (if p.counterThreshold ≤ (if p.anomalyEndThresholdLow ≤ gyro.Y ∧
          gyro.Y ≤ p.anomalyEndThresholdHigh then 1 else 0) then
        (⟨[], [], false,
          (if p.anomalyEndThresholdLow ≤ gyro.Y ∧
            gyro.Y ≤ p.anomalyEndThresholdHigh then 1 else 0),
          (if p.gyroscopeYThreshold < |gyro.Y| then
            s.aboveThresholdCounter + 1 else 0)⟩,
         if p.minimumAnomalyLength ≤ 1 then some [-gyro.Y, acc.X] else none)
      else
        (⟨[acc.X], [-gyro.Y], true,
          (if p.anomalyEndThresholdLow ≤ gyro.Y ∧
            gyro.Y ≤ p.anomalyEndThresholdHigh then 1 else 0),
          (if p.gyroscopeYThreshold < |gyro.Y| then
            s.aboveThresholdCounter + 1 else 0)⟩, none)) := by
  by_cases habove : p.gyroscopeYThreshold < |gyro.Y|
  · rw [if_pos habove] at hcnt
    by_cases hband : p.anomalyEndThresholdLow ≤ gyro.Y ∧
      gyro.Y ≤ p.anomalyEndThresholdHigh
    · by_cases hclose : p.counterThreshold ≤ 1 <;>
        simp [processDataV2, habove, hband, hclose, hcol, hcnt]
    · by_cases hclose : p.counterThreshold ≤ 0 <;>
        simp [processDataV2, habove, hband, hclose, hcol, hcnt]
  · rw [if_neg habove] at hcnt
    by_cases hband : p.anomalyEndThresholdLow ≤ gyro.Y ∧
      gyro.Y ≤ p.anomalyEndThresholdHigh
    · by_cases hclose : p.counterThreshold ≤ 1 <;>
        simp [processDataV2, habove, hband, hclose, hcol, hcnt]
    · by_cases hclose : p.counterThreshold ≤ 0 <;>
        simp [processDataV2, habove, hband, hclose, hcol, hcnt]

theorem step_collecting_continue (p : SegParams) (s : SegState)
    (acc gyro : Vec3) (hcol : s.collectingData = true)
    (hnoclose : (if p.anomalyEndThresholdLow ≤ gyro.Y ∧
        gyro.Y ≤ p.anomalyEndThresholdHigh then
        s.inThresholdCounter + 1 else 0) < p.counterThreshold) :
    processDataV2 p s acc gyro =
      ({ s with gyroSequence := s.gyroSequence ++ [-gyro.Y],
                accSequence := s.accSequence ++ [acc.X],
                inThresholdCounter :=
                  if p.anomalyEndThresholdLow ≤ gyro.Y ∧
                    gyro.Y ≤ p.anomalyEndThresholdHigh then
                    s.inThresholdCounter + 1 else 0,
                aboveThresholdCounter :=
                  if p.gyroscopeYThreshold < |gyro.Y| then
                    s.aboveThresholdCounter + 1 else 0 }, none) := by
  by_cases habove : p.gyroscopeYThreshold < |gyro.Y|
  all_goals by_cases hband : p.anomalyEndThresholdLow ≤ gyro.Y ∧
    gyro.Y ≤ p.anomalyEndThresholdHigh
  · rw [if_pos hband] at hnoclose
    have hnc : ¬ p.counterThreshold ≤ s.inThresholdCounter + 1 := by omega
    simp [processDataV2, habove, hband, hcol, hnc]
  · rw [if_neg hband] at hnoclose
    have hnc : ¬ p.counterThreshold ≤ 0 := by omega
    simp [processDataV2, habove, hband, hcol, hnc]
  · rw [if_pos hband] at hnoclose
    have hnc : ¬ p.counterThreshold ≤ s.inThresholdCounter + 1 := by omega
    simp [processDataV2, habove, hband, hcol, hnc]
  · rw [if_neg hband] at hnoclose
    have hnc : ¬ p.counterThreshold ≤ 0 := by omega
    simp [processDataV2, habove, hband, hcol, hnc]

theorem step_collecting_close (p : SegParams) (s : SegState)
    (acc gyro : Vec3) (hcol : s.collectingData = true)
    (hclose : p.counterThreshold ≤ (if p.anomalyEndThresholdLow ≤ gyro.Y ∧
        gyro.Y ≤ p.anomalyEndThresholdHigh then
        s.inThresholdCounter + 1 else 0)) :
    processDataV2 p s acc gyro =
      ({ s with collectingData := false, gyroSequence := [], accSequence := [],
                inThresholdCounter :=
                  if p.anomalyEndThresholdLow ≤ gyro.Y ∧
                    gyro.Y ≤ p.anomalyEndThresholdHigh then
                    s.inThresholdCounter + 1 else 0,
                aboveThresholdCounter :=
                  if p.gyroscopeYThreshold < |gyro.Y| then
                    s.aboveThresholdCounter + 1 else 0 },
       if p.minimumAnomalyLength ≤ s.gyroSequence.length + 1 then
         some ((s.gyroSequence ++ [-gyro.Y]) ++ (s.accSequence ++ [acc.X]))
       else none) := by
  by_cases habove : p.gyroscopeYThreshold < |gyro.Y|
  all_goals by_cases hband : p.anomalyEndThresholdLow ≤ gyro.Y ∧
    gyro.Y ≤ p.anomalyEndThresholdHigh
  · rw [if_pos hband] at hclose
    simp [processDataV2, habove, hband, hcol, hclose]
  · rw [if_neg hband] at hclose
    simp [processDataV2, habove, hband, hcol, hclose]
  · rw [if_pos hband] at hclose
    simp [processDataV2, habove, hband, hcol, hclose]
  · rw [if_neg hband] at hclose
    simp [processDataV2, habove, hband, hcol, hclose]

/-! ## C7: the end-band counter is *not* evaluated while IDLE -/

/-- **C7 counterexample** — the claim says both counters are evaluated on
every step regardless of state, the end-band counter being incremented
whenever `endBandLow ≤ gyroY ≤ endBandHigh`.  At the source's own
constants, feed the fresh `IDLE` state one sample with `gyroY = 0`:
the sample lies inside the end band, yet `inThresholdCounter` stays `0`
instead of being incremented to `1` — the code touches that counter
only inside the `if (collectingData)` block. -/
theorem endband_counter_claim_cex :
    (defaultSegParams.anomalyEndThresholdLow ≤ (0 : ℚ) ∧
      (0 : ℚ) ≤ defaultSegParams.anomalyEndThresholdHigh) ∧
    segInit.collectingData = false ∧
    (processDataV2 defaultSegParams segInit ⟨0, 0, 0⟩
      ⟨0, 0, 0⟩).1.inThresholdCounter = segInit.inThresholdCounter ∧
    segInit.inThresholdCounter + 1 ≠ segInit.inThresholdCounter := by
  norm_num [processDataV2, defaultSegParams, segInit]

/-- **C7 amended** — the above-threshold run counter is evaluated on
every step regardless of state (incremented when
`|gyroY| > excursionThreshold`, reset to 0 otherwise).  The end-band run
counter, however, is updated only on steps spent `COLLECTING` after the
open-check: on a step that stays `IDLE` it is left unchanged (and the
step neither opens a capture nor emits); on a step that opens a capture
it is reset to 0 and then updated from the current sample; on a step
already `COLLECTING` it is incremented or reset according to
`endBandLow ≤ gyroY ≤ endBandHigh`.  It therefore never triggers a
close outside `COLLECTING`. -/
theorem counters_update_spec (p : SegParams) (s : SegState)
    (acc gyro : Vec3) :
    (processDataV2 p s acc gyro).1.aboveThresholdCounter =
      (if p.gyroscopeYThreshold < |gyro.Y| then
        s.aboveThresholdCounter + 1 else 0) ∧
    (s.collectingData = false →
      (if p.gyroscopeYThreshold < |gyro.Y| then
        s.aboveThresholdCounter + 1 else 0) < p.startThresholdCount →
      (processDataV2 p s acc gyro).1.inThresholdCounter =
          s.inThresholdCounter ∧
        (processDataV2 p s acc gyro).1.collectingData = false ∧
        (processDataV2 p s acc gyro).2 = none) ∧
    (s.collectingData = false →
      p.startThresholdCount ≤ (if p.gyroscopeYThreshold < |gyro.Y| then
        s.aboveThresholdCounter + 1 else 0) →
      (processDataV2 p s acc gyro).1.inThresholdCounter =
        (if p.anomalyEndThresholdLow ≤ gyro.Y ∧
          gyro.Y ≤ p.anomalyEndThresholdHigh then 1 else 0)) ∧
    (s.collectingData = true →
      (processDataV2 p s acc gyro).1.inThresholdCounter =
        (if p.anomalyEndThresholdLow ≤ gyro.Y ∧
          gyro.Y ≤ p.anomalyEndThresholdHigh then
          s.inThresholdCounter + 1 else 0)) := by
  refine ⟨?_, ?_, ?_, ?_⟩
  · by_cases hcol : s.collectingData = true
    · by_cases hclose : p.counterThreshold ≤
        (if p.anomalyEndThresholdLow ≤ gyro.Y ∧
          gyro.Y ≤ p.anomalyEndThresholdHigh then
          s.inThresholdCounter + 1 else 0)
      · rw [step_collecting_close p s acc gyro hcol hclose]
      · rw [step_collecting_continue p s acc gyro hcol (by omega)]
    · have hcol' : s.collectingData = false := by
        simpa using hcol
      by_cases hcnt : p.startThresholdCount ≤
        (if p.gyroscopeYThreshold < |gyro.Y| then
          s.aboveThresholdCounter + 1 else 0)
      · rw [step_open p s acc gyro hcol' hcnt]
        split_ifs <;> rfl
      · rw [step_idle_stay p s acc gyro hcol' (by omega)]
  · intro hcol hcnt
    rw [step_idle_stay p s acc gyro hcol hcnt]
    exact ⟨rfl, hcol, rfl⟩
  · intro hcol hcnt
    rw [step_open p s acc gyro hcol hcnt]
    split_ifs <;> rfl
  · intro hcol
    by_cases hclose : p.counterThreshold ≤
      (if p.anomalyEndThresholdLow ≤ gyro.Y ∧
        gyro.Y ≤ p.anomalyEndThresholdHigh then
        s.inThresholdCounter + 1 else 0)
    · rw [step_collecting_close p s acc gyro hcol hclose]
    · rw [step_collecting_continue p s acc gyro hcol (by omega)]

/-- Witness for the amended C7: with `startThresholdCount` raised to 2,
one above-threshold sample leaves the segmenter `IDLE` with the end-band
counter untouched and no emission. -/
theorem counters_update_spec_witness :
    (processDataV2 ⟨3 / 2, -1, 1, 2, 20, 5⟩ segInit ⟨1, 0, 0⟩
      ⟨0, 2, 0⟩).1.inThresholdCounter = segInit.inThresholdCounter ∧
    (processDataV2 ⟨3 / 2, -1, 1, 2, 20, 5⟩ segInit ⟨1, 0, 0⟩
      ⟨0, 2, 0⟩).1.collectingData = false ∧
    (processDataV2 ⟨3 / 2, -1, 1, 2, 20, 5⟩ segInit ⟨1, 0, 0⟩
      ⟨0, 2, 0⟩).2 = none :=
  (counters_update_spec ⟨3 / 2, -1, 1, 2, 20, 5⟩ segInit ⟨1, 0, 0⟩
    ⟨0, 2, 0⟩).2.1 rfl (by norm_num [segInit])

/-! ## C8: collection is only ended by the end-band run -/

/-- **C8** — while `COLLECTING` (for a configuration whose end band lies
inside the excursion range, as the source's constants do): an
above-threshold sample never ends the capture; the state returns to
`IDLE` exactly on a step whose in-band sample completes a run of
`counterThreshold` consecutive in-band samples (the counter having
counted `inThresholdCounter` of them so far); every sample fed while
collecting is appended to both sequences — on a continuing step both
sequences grow by the current sample, and on the closing step the
emitted output (present iff the capture, current sample included,
reached `minimumAnomalyLength`) ends with the current sample's
contributions. -/
theorem collecting_uninterrupted_spec (p : SegParams)
    (hcT : 1 ≤ p.counterThreshold)
    (hbandHigh : p.anomalyEndThresholdHigh ≤ p.gyroscopeYThreshold)
    (hbandLow : -p.gyroscopeYThreshold ≤ p.anomalyEndThresholdLow)
    (s : SegState) (hs : s.collectingData = true) (acc gyro : Vec3) :
    (p.gyroscopeYThreshold < |gyro.Y| →
      (processDataV2 p s acc gyro).1.collectingData = true) ∧
    ((processDataV2 p s acc gyro).1.collectingData = false ↔
      (p.anomalyEndThresholdLow ≤ gyro.Y ∧
        gyro.Y ≤ p.anomalyEndThresholdHigh ∧
        p.counterThreshold ≤ s.inThresholdCounter + 1)) ∧
    ((processDataV2 p s acc gyro).1.collectingData = true →
      (processDataV2 p s acc gyro).1.gyroSequence =
          s.gyroSequence ++ [-gyro.Y] ∧
        (processDataV2 p s acc gyro).1.accSequence =
          s.accSequence ++ [acc.X]) ∧
    ((processDataV2 p s acc gyro).1.collectingData = false →
      (p.minimumAnomalyLength ≤ s.gyroSequence.length + 1 →
        (processDataV2 p s acc gyro).2 =
          some ((s.gyroSequence ++ [-gyro.Y]) ++
            (s.accSequence ++ [acc.X]))) ∧
      (s.gyroSequence.length + 1 < p.minimumAnomalyLength →
        (processDataV2 p s acc gyro).2 = none)) := by
  have hnb : p.gyroscopeYThreshold < |gyro.Y| →
      ¬ (p.anomalyEndThresholdLow ≤ gyro.Y ∧
        gyro.Y ≤ p.anomalyEndThresholdHigh) := by
    intro ha hband
    rcases lt_abs.mp ha with hy | hy
    · linarith [hband.2]
    · linarith [hband.1]
  by_cases hband : p.anomalyEndThresholdLow ≤ gyro.Y ∧
    gyro.Y ≤ p.anomalyEndThresholdHigh
  · by_cases hclose : p.counterThreshold ≤ s.inThresholdCounter + 1
    · rw [step_collecting_close p s acc gyro hs (by rw [if_pos hband]; omega)]
      refine ⟨?_, ?_, ?_, ?_⟩
      · intro ha
        exact absurd hband (hnb ha)
      · exact ⟨fun _ => ⟨hband.1, hband.2, hclose⟩, fun _ => rfl⟩
      · intro h
        exact absurd h (by simp)
      · intro _
        refine ⟨fun hmin => ?_, fun hlt => ?_⟩
        · show (if p.minimumAnomalyLength ≤ s.gyroSequence.length + 1 then
            _ else _) = _
          rw [if_pos hmin]
        · show (if p.minimumAnomalyLength ≤ s.gyroSequence.length + 1 then
            _ else _) = _
          rw [if_neg (by omega)]
    · rw [step_collecting_continue p s acc gyro hs
        (by rw [if_pos hband]; omega)]
      refine ⟨fun _ => hs, ?_, fun _ => ⟨rfl, rfl⟩, ?_⟩
      · constructor
        · intro h
          exact absurd h (by simp [hs])
        · rintro ⟨_, _, h3⟩
          exact absurd h3 hclose
      · intro h
        exact absurd h (by simp [hs])
  · rw [step_collecting_continue p s acc gyro hs (by rw [if_neg hband]; omega)]
    refine ⟨fun _ => hs, ?_, fun _ => ⟨rfl, rfl⟩, ?_⟩
    · constructor
      · intro h
        exact absurd h (by simp [hs])
      · rintro ⟨h1, h2, _⟩
        exact absurd ⟨h1, h2⟩ hband
    · intro h
      exact absurd h (by simp [hs])

/-- Witness for C8 at the source's constants: a collecting state hit by
an above-threshold sample keeps collecting and appends it. -/
theorem collecting_uninterrupted_spec_witness :
    (processDataV2 defaultSegParams ⟨[5], [7], true, 0, 0⟩ ⟨1, 0, 0⟩
      ⟨0, 2, 0⟩).1.collectingData = true :=
  (collecting_uninterrupted_spec defaultSegParams (by norm_num [defaultSegParams])
    (by norm_num [defaultSegParams]) (by norm_num [defaultSegParams])
    ⟨[5], [7], true, 0, 0⟩ rfl ⟨1, 0, 0⟩ ⟨0, 2, 0⟩).1
    (by norm_num [defaultSegParams])

/-! ## C3: opening a capture requires a genuine above-threshold run -/

theorem trailCount_append (p : SegParams) (l : List (Vec3 × Vec3))
    (i : Vec3 × Vec3) :
    trailCount p (l ++ [i]) =
      if aboveThr p i then trailCount p l + 1 else 0 := by
  unfold trailCount
  rw [List.foldl_append]
  rfl

theorem trailCount_suffix (p : SegParams) (l : List (Vec3 × Vec3)) :
    ∀ k, k ≤ trailCount p l →
    ∃ pre mid, l = pre ++ mid ∧ mid.length = k ∧ ∀ i ∈ mid, aboveThr p i := by
  induction l using List.reverseRecOn with
  | nil =>
    intro k hk
    have hk0 : k = 0 := by
      simpa [trailCount] using hk
    exact ⟨[], [], by simp, by simp [hk0], by simp⟩
  | append_singleton ys i ih =>
    intro k hk
    rw [trailCount_append] at hk
    by_cases hab : aboveThr p i
    · rw [if_pos hab] at hk
      match k with
      | 0 => exact ⟨ys ++ [i], [], by simp, rfl, by simp⟩
      | k' + 1 =>
        obtain ⟨pre, mid, heq, hlen, hmem⟩ := ih k' (by omega)
        refine ⟨pre, mid ++ [i], by rw [heq, List.append_assoc],
          by simp [hlen], ?_⟩
        intro j hj
        rcases List.mem_append.mp hj with hj | hj
        · exact hmem j hj
        · rw [List.mem_singleton.mp hj]
          exact hab
    · rw [if_neg hab] at hk
      have hk0 : k = 0 := by omega
      exact ⟨ys ++ [i], [], by simp, by simp [hk0], by simp⟩

theorem hasRun_of_trailCount (p : SegParams) (L : ℕ)
    (l rest : List (Vec3 × Vec3)) (h : L ≤ trailCount p l) :
    hasRun p L (l ++ rest) := by
  obtain ⟨pre, mid, heq, hlen, hmem⟩ := trailCount_suffix p l L h
  exact ⟨pre, mid, rest, by rw [heq, List.append_assoc], hlen, hmem⟩

theorem segRun_no_open (p : SegParams) :
    ∀ (rest processed : List (Vec3 × Vec3)) (s : SegState),
      s.collectingData = false →
      s.aboveThresholdCounter = trailCount p processed →
      ¬ hasRun p p.startThresholdCount (processed ++ rest) →
      (segSteps p s rest).1.collectingData = false := by
  intro rest
  induction rest with
  | nil =>
    intro processed s hcol _ _
    exact hcol
  | cons i is ih =>
    intro processed s hcol hcnt hrun
    have hlt : (if p.gyroscopeYThreshold < |i.2.Y| then
        s.aboveThresholdCounter + 1 else 0) < p.startThresholdCount := by
      by_contra hge
      push_neg at hge
      apply hrun
      have htc : p.startThresholdCount ≤ trailCount p (processed ++ [i]) := by
        rw [trailCount_append]
        rw [hcnt] at hge
        exact hge
      have h2 := hasRun_of_trailCount p p.startThresholdCount
        (processed ++ [i]) is htc
      rwa [List.append_assoc, List.singleton_append] at h2
    show (segSteps p (processDataV2 p s i.1 i.2).1 is).1.collectingData = false
    rw [step_idle_stay p s i.1 i.2 hcol hlt]
    apply ih (processed ++ [i])
    · exact hcol
    · rw [trailCount_append]
      rw [hcnt]
      rfl
    · rwa [List.append_assoc, List.singleton_append]

/-- **C3** — (a) starting from the fresh `IDLE` state, the segmenter is
still not collecting after any input sequence that contains no run of
`startThresholdCount` consecutive above-threshold samples (so in
particular `startThresholdCount - 1` above-threshold samples followed by
an in-band sample leave it `IDLE`); (b) a step on an `IDLE` state whose
above-threshold update reaches `startThresholdCount` opens a capture:
the post-step state is `COLLECTING`, both sequences were cleared before
the current sample was appended, and the end-band counter was reset
(the current sample, being above threshold, lies outside the end band
for a configuration whose end band sits inside the excursion range, as
the source's constants do). -/
theorem capture_open_spec (p : SegParams)
    (hL : 1 ≤ p.startThresholdCount) (hcT : 1 ≤ p.counterThreshold)
    (hbandHigh : p.anomalyEndThresholdHigh ≤ p.gyroscopeYThreshold)
    (hbandLow : -p.gyroscopeYThreshold ≤ p.anomalyEndThresholdLow) :
    (∀ ins : List (Vec3 × Vec3), ¬ hasRun p p.startThresholdCount ins →
      (segSteps p segInit ins).1.collectingData = false) ∧
    (∀ s : SegState, s.collectingData = false → ∀ acc gyro : Vec3,
      p.startThresholdCount ≤ (if p.gyroscopeYThreshold < |gyro.Y| then
        s.aboveThresholdCounter + 1 else 0) →
      processDataV2 p s acc gyro =
        (⟨[acc.X], [-gyro.Y], true, 0, s.aboveThresholdCounter + 1⟩, none)) := by
  constructor
  · intro ins hrun
    exact segRun_no_open p ins [] segInit rfl rfl (by simpa using hrun)
  · intro s hcol acc gyro hcnt
    have habove : p.gyroscopeYThreshold < |gyro.Y| := by
      by_contra hab
      rw [if_neg hab] at hcnt
      omega
    have hband : ¬ (p.anomalyEndThresholdLow ≤ gyro.Y ∧
        gyro.Y ≤ p.anomalyEndThresholdHigh) := by
      intro hb
      rcases lt_abs.mp habove with hy | hy
      · linarith [hb.2]
      · linarith [hb.1]
    rw [step_open p s acc gyro hcol hcnt, if_neg hband,
      if_neg (show ¬ p.counterThreshold ≤ 0 by omega), if_pos habove]

/-- Witness for C3 at the source's constants: one above-threshold sample
(`gyroY = 2`) fed to the fresh `IDLE` state opens a capture. -/
theorem capture_open_spec_witness :
    processDataV2 defaultSegParams segInit ⟨1, 0, 0⟩ ⟨0, 2, 0⟩ =
      (⟨[1], [-2], true, 0, segInit.aboveThresholdCounter + 1⟩, none) :=
  (capture_open_spec defaultSegParams (by norm_num [defaultSegParams])
    (by norm_num [defaultSegParams]) (by norm_num [defaultSegParams])
    (by norm_num [defaultSegParams])).2 segInit rfl ⟨1, 0, 0⟩ ⟨0, 2, 0⟩
    (by norm_num [defaultSegParams, segInit])

/-! ## C2: content of an emitted capture -/

theorem segStep_capture (p : SegParams) (processed : List (Vec3 × Vec3))
    (s : SegState) (hinv : SegCaptureInv p processed s) (i : Vec3 × Vec3) :
    SegCaptureInv p (processed ++ [i]) (processDataV2 p s i.1 i.2).1 ∧
    (∀ out, (processDataV2 p s i.1 i.2).2 = some out →
      ∃ j, j ≤ processed.length ∧
        out = ((processed ++ [i]).drop j).map (fun a => -(a.2.Y)) ++
          ((processed ++ [i]).drop j).map (fun a => a.1.X) ∧
        p.minimumAnomalyLength ≤ ((processed ++ [i]).drop j).length) := by
  by_cases hcol : s.collectingData = true
  · obtain ⟨j, hj, hg, ha⟩ := hinv hcol
    have hdrop : (processed ++ [i]).drop j = processed.drop j ++ [i] :=
      List.drop_append_of_le_length hj
    have hglen : (processed.drop j).length = s.gyroSequence.length := by
      rw [hg, List.length_map]
    by_cases hclose : p.counterThreshold ≤
      (if p.anomalyEndThresholdLow ≤ i.2.Y ∧
        i.2.Y ≤ p.anomalyEndThresholdHigh then s.inThresholdCounter + 1 else 0)
    · rw [step_collecting_close p s i.1 i.2 hcol hclose]
      constructor
      · intro h
        exact absurd h (by simp)
      · intro out hout
        by_cases hmin : p.minimumAnomalyLength ≤ s.gyroSequence.length + 1
        · rw [if_pos hmin, Option.some.injEq] at hout
          subst hout
          refine ⟨j, hj, ?_, ?_⟩
          · rw [hdrop, hg, ha]
            simp
          · rw [hdrop]
            simp only [List.length_append, List.length_cons, List.length_nil]
            omega
        · rw [if_neg hmin] at hout
          cases hout
    · rw [step_collecting_continue p s i.1 i.2 hcol (by omega)]
      constructor
      · intro _
        refine ⟨j, ?_, ?_, ?_⟩
        · simp only [List.length_append, List.length_cons, List.length_nil]
          omega
        · show s.gyroSequence ++ [-i.2.Y] =
            ((processed ++ [i]).drop j).map fun a => -(a.2.Y)
          rw [hdrop, hg]
          simp
        · show s.accSequence ++ [i.1.X] =
            ((processed ++ [i]).drop j).map fun a => a.1.X
          rw [hdrop, ha]
          simp
      · intro out hout
        cases hout
  · have hcol' : s.collectingData = false := by
      simpa using hcol
    by_cases hcnt : p.startThresholdCount ≤
      (if p.gyroscopeYThreshold < |i.2.Y| then s.aboveThresholdCounter + 1
        else 0)
    · rw [step_open p s i.1 i.2 hcol' hcnt]
      by_cases hclose : p.counterThreshold ≤
        (if p.anomalyEndThresholdLow ≤ i.2.Y ∧
          i.2.Y ≤ p.anomalyEndThresholdHigh then 1 else 0)
      · rw [if_pos hclose]
        constructor
        · intro h
          exact absurd h (by simp)
        · intro out hout
          by_cases hmin : p.minimumAnomalyLength ≤ 1
          · rw [if_pos hmin, Option.some.injEq] at hout
            subst hout
            refine ⟨processed.length, le_rfl, ?_, ?_⟩
            · rw [List.drop_left]
              simp
            · rw [List.drop_left]
              simpa using hmin
          · rw [if_neg hmin] at hout
            cases hout
      · rw [if_neg hclose]
        constructor
        · intro _
          refine ⟨processed.length, ?_, ?_, ?_⟩
          · simp
          · show [-i.2.Y] = ((processed ++ [i]).drop processed.length).map
              fun a => -(a.2.Y)
            rw [List.drop_left]
            simp
          · show [i.1.X] = ((processed ++ [i]).drop processed.length).map
              fun a => a.1.X
            rw [List.drop_left]
            simp
        · intro out hout
          cases hout
    · rw [step_idle_stay p s i.1 i.2 hcol' (by omega)]
      constructor
      · intro h
        exact absurd h (by simpa using hcol)
      · intro out hout
        cases hout

theorem segRun_capture (p : SegParams) :
    ∀ (rest processed : List (Vec3 × Vec3)) (s : SegState),
      SegCaptureInv p processed s →
      ∀ k out, (segSteps p s rest).2.get? k = some (some out) →
      ∃ j, j ≤ processed.length + k ∧
        out = (captureSlice (processed ++ rest) (processed.length + k) j).map
            (fun a => -(a.2.Y)) ++
          (captureSlice (processed ++ rest) (processed.length + k) j).map
            (fun a => a.1.X) ∧
        p.minimumAnomalyLength ≤
          (captureSlice (processed ++ rest) (processed.length + k) j).length := by
  intro rest
  induction rest with
  | nil =>
    intro processed s _ k out hout
    simp [segSteps] at hout
  | cons i is ih =>
    intro processed s hinv k out hout
    obtain ⟨hinv', hemit⟩ := segStep_capture p processed s hinv i
    match k with
    | 0 =>
      have hr : (processDataV2 p s i.1 i.2).2 = some out := by
        simpa [segSteps] using hout
      obtain ⟨j, hj, hval, hlen⟩ := hemit out hr
      have hslice : ∀ j' : ℕ,
          captureSlice (processed ++ i :: is) (processed.length + 0) j'
            = (processed ++ [i]).drop j' := by
        intro j'
        unfold captureSlice
        rw [← List.singleton_append, ← List.append_assoc]
        have h2 : processed.length + 0 + 1 = (processed ++ [i]).length + 0 := by
          simp
        rw [h2, List.take_append 0, List.take_zero, List.append_nil]
      exact ⟨j, by omega, by rw [hslice j]; exact hval,
        by rw [hslice j]; exact hlen⟩
    | k' + 1 =>
      have hout' : (segSteps p (processDataV2 p s i.1 i.2).1 is).2.get? k' =
          some (some out) := by
        simpa [segSteps] using hout
      obtain ⟨j, hj, hval, hlen⟩ :=
        ih (processed ++ [i]) (processDataV2 p s i.1 i.2).1 hinv' k' out hout'
      have harr : (processed ++ [i]) ++ is = processed ++ i :: is := by
        rw [List.append_assoc, List.singleton_append]
      have hidx : (processed ++ [i]).length + k' = processed.length + (k' + 1) := by
        simp only [List.length_append, List.length_cons, List.length_nil]
        omega
      rw [harr, hidx] at hval hlen
      refine ⟨j, ?_, hval, hlen⟩
      simp only [List.length_append, List.length_cons, List.length_nil] at hj
      omega

theorem segSteps_prefix_inv (p : SegParams) :
    ∀ (l processed : List (Vec3 × Vec3)) (s : SegState),
      SegCaptureInv p processed s →
      SegCaptureInv p (processed ++ l) (segSteps p s l).1 := by
  intro l
  induction l with
  | nil =>
    intro processed s h
    simpa using h
  | cons i is ih =>
    intro processed s h
    have h2 := ih (processed ++ [i]) (processDataV2 p s i.1 i.2).1
      (segStep_capture p processed s h i).1
    show SegCaptureInv p (processed ++ i :: is)
      (segSteps p (processDataV2 p s i.1 i.2).1 is).1
    rwa [List.append_assoc, List.singleton_append] at h2

theorem segSteps_decompose (p : SegParams) :
    ∀ (ins : List (Vec3 × Vec3)) (s : SegState) (k : ℕ) (i : Vec3 × Vec3),
      ins.get? k = some i →
      (segSteps p s (ins.take (k + 1))).1 =
        (processDataV2 p (segSteps p s (ins.take k)).1 i.1 i.2).1 ∧
      (segSteps p s ins).2.get? k =
        some (processDataV2 p (segSteps p s (ins.take k)).1 i.1 i.2).2 := by
  intro ins
  induction ins with
  | nil =>
    intro s k i h
    cases h
  | cons a as ih =>
    intro s k i h
    match k with
    | 0 =>
      rw [List.get?_cons_zero, Option.some.injEq] at h
      subst h
      exact ⟨rfl, rfl⟩
    | k' + 1 =>
      rw [List.get?_cons_succ] at h
      have hih := ih (processDataV2 p s a.1 a.2).1 k' i h
      exact ⟨hih.1, hih.2⟩

theorem segStep_close_emits (p : SegParams) (s : SegState) (acc gyro : Vec3)
    (hcol : s.collectingData = true)
    (hclosed : (processDataV2 p s acc gyro).1.collectingData = false)
    (hmin : p.minimumAnomalyLength ≤ s.gyroSequence.length + 1) :
    (processDataV2 p s acc gyro).2 =
      some ((s.gyroSequence ++ [-gyro.Y]) ++ (s.accSequence ++ [acc.X])) := by
  by_cases hclose : p.counterThreshold ≤
    (if p.anomalyEndThresholdLow ≤ gyro.Y ∧
      gyro.Y ≤ p.anomalyEndThresholdHigh then s.inThresholdCounter + 1 else 0)
  · rw [step_collecting_close p s acc gyro hcol hclose]
    exact if_pos hmin
  · rw [step_collecting_continue p s acc gyro hcol (by omega)] at hclosed
    simp [hcol] at hclosed

theorem take_get_succ (l : List (Vec3 × Vec3)) (n : ℕ) (i : Vec3 × Vec3)
    (h : l.get? n = some i) : l.take (n + 1) = l.take n ++ [i] := by
  rw [List.get?_eq_getElem?] at h
  rw [List.take_succ, h]
  rfl

/-- **C2** — from the fresh segmenter state: (a, emission occurrence)
whenever the segmenter is collecting before step `k` and idle after it
(a capture closes at step `k`) having collected at least
`minimumAnomalyLength` samples (closing sample included), the run *does*
emit at step `k`, and the emitted output is `gyroSequence ++
accSequence` over the capture: for some opening index `j ≤ k` its first
half is the negation of the gyroscope-Y values of the samples fed at
steps `j..k` (the samples fed while collecting), in arrival order, its
second half is those samples' accelerometer-X values in arrival order,
the capture length equals the number of samples collected, and the
output's length is exactly twice that; (b, emission content) every
output ever emitted has exactly this shape over a capture of at least
`minimumAnomalyLength` samples — in particular no output is ever
emitted for a shorter capture. -/
theorem capture_emission_spec (p : SegParams) (ins : List (Vec3 × Vec3)) :
    (∀ k i, ins.get? k = some i →
      (segSteps p segInit (ins.take k)).1.collectingData = true →
      (segSteps p segInit (ins.take (k + 1))).1.collectingData = false →
      p.minimumAnomalyLength ≤
        (segSteps p segInit (ins.take k)).1.gyroSequence.length + 1 →
      ∃ j, j ≤ k ∧
        (segSteps p segInit ins).2.get? k =
          some (some ((captureSlice ins k j).map (fun a => -(a.2.Y)) ++
            (captureSlice ins k j).map (fun a => a.1.X))) ∧
        (captureSlice ins k j).length =
          (segSteps p segInit (ins.take k)).1.gyroSequence.length + 1 ∧
        p.minimumAnomalyLength ≤ (captureSlice ins k j).length ∧
        ((captureSlice ins k j).map (fun a => -(a.2.Y)) ++
          (captureSlice ins k j).map (fun a => a.1.X)).length =
          2 * (captureSlice ins k j).length) ∧
    (∀ k out, (segSteps p segInit ins).2.get? k = some (some out) →
      ∃ j, j ≤ k ∧
        out = (captureSlice ins k j).map (fun a => -(a.2.Y)) ++
          (captureSlice ins k j).map (fun a => a.1.X) ∧
        p.minimumAnomalyLength ≤ (captureSlice ins k j).length ∧
        out.length = 2 * (captureSlice ins k j).length) := by
  have hinv0 : SegCaptureInv p [] segInit := by
    intro hcol
    cases hcol
  constructor
  · intro k i hk hcolAt hcolAfter hmin
    obtain ⟨hstate, hout⟩ := segSteps_decompose p ins segInit k i hk
    have hinv : SegCaptureInv p (ins.take k)
        (segSteps p segInit (ins.take k)).1 := by
      simpa using segSteps_prefix_inv p (ins.take k) [] segInit hinv0
    obtain ⟨j, hj, hg, ha⟩ := hinv hcolAt
    have hclosed : (processDataV2 p (segSteps p segInit (ins.take k)).1
        i.1 i.2).1.collectingData = false := by
      rw [← hstate]
      exact hcolAfter
    have hemit := segStep_close_emits p (segSteps p segInit (ins.take k)).1
      i.1 i.2 hcolAt hclosed hmin
    have htake : ins.take (k + 1) = ins.take k ++ [i] := take_get_succ ins k i hk
    have hjk : j ≤ k := by
      rw [List.length_take] at hj
      omega
    have hslice : captureSlice ins k j = (ins.take k).drop j ++ [i] := by
      unfold captureSlice
      rw [htake, List.drop_append_of_le_length hj]
    have hglen : ((ins.take k).drop j).length =
        (segSteps p segInit (ins.take k)).1.gyroSequence.length := by
      rw [hg, List.length_map]
    refine ⟨j, hjk, ?_, ?_, ?_, ?_⟩
    · rw [hout, hemit, hslice, hg, ha]
      simp
    · rw [hslice]
      simp only [List.length_append, List.length_cons, List.length_nil]
      omega
    · rw [hslice]
      simp only [List.length_append, List.length_cons, List.length_nil]
      omega
    · simp [two_mul]
  · intro k out h
    obtain ⟨j, hj, hval, hlen⟩ := segRun_capture p ins [] segInit hinv0 k out h
    simp only [List.nil_append, List.length_nil, Nat.zero_add] at hj hval hlen
    refine ⟨j, hj, hval, hlen, ?_⟩
    rw [hval]
    simp [two_mul]

/-- Witness for C2, exercising the emission-occurrence direction: with
a small threshold configuration (integer excursion threshold 1,
`minimumAnomalyLength = 2`, `counterThreshold = 1`) a two-step run has
its capture close at step 1 with 2 samples, and the emission
`[-2, 0] ++ [1, 1]` does occur there. -/
theorem capture_emission_spec_witness :
    ∃ j, j ≤ 1 ∧
      (segSteps ⟨1, -1, 1, 1, 2, 1⟩ segInit
          [(⟨1, 0, 0⟩, ⟨0, 2, 0⟩), (⟨1, 0, 0⟩, ⟨0, 0, 0⟩)]).2.get? 1 =
        some (some
          ((captureSlice [(⟨1, 0, 0⟩, ⟨0, 2, 0⟩), (⟨1, 0, 0⟩, ⟨0, 0, 0⟩)] 1
              j).map (fun a => -(a.2.Y)) ++
            (captureSlice [(⟨1, 0, 0⟩, ⟨0, 2, 0⟩), (⟨1, 0, 0⟩, ⟨0, 0, 0⟩)] 1
              j).map (fun a => a.1.X))) ∧
      (captureSlice [(⟨1, 0, 0⟩, ⟨0, 2, 0⟩), (⟨1, 0, 0⟩, ⟨0, 0, 0⟩)] 1
          j).length =
        (segSteps ⟨1, -1, 1, 1, 2, 1⟩ segInit
          ([(⟨1, 0, 0⟩, ⟨0, 2, 0⟩),
            (⟨1, 0, 0⟩, ⟨0, 0, 0⟩)].take 1)).1.gyroSequence.length + 1 ∧
      (⟨1, -1, 1, 1, 2, 1⟩ : SegParams).minimumAnomalyLength ≤
        (captureSlice [(⟨1, 0, 0⟩, ⟨0, 2, 0⟩), (⟨1, 0, 0⟩, ⟨0, 0, 0⟩)] 1
          j).length ∧
      ((captureSlice [(⟨1, 0, 0⟩, ⟨0, 2, 0⟩), (⟨1, 0, 0⟩, ⟨0, 0, 0⟩)] 1
          j).map (fun a => -(a.2.Y)) ++
        (captureSlice [(⟨1, 0, 0⟩, ⟨0, 2, 0⟩), (⟨1, 0, 0⟩, ⟨0, 0, 0⟩)] 1
          j).map (fun a => a.1.X)).length =
        2 * (captureSlice [(⟨1, 0, 0⟩, ⟨0, 2, 0⟩), (⟨1, 0, 0⟩, ⟨0, 0, 0⟩)] 1
          j).length :=
  (capture_emission_spec ⟨1, -1, 1, 1, 2, 1⟩
    [(⟨1, 0, 0⟩, ⟨0, 2, 0⟩), (⟨1, 0, 0⟩, ⟨0, 0, 0⟩)]).1 1
    (⟨1, 0, 0⟩, ⟨0, 0, 0⟩) (by decide) (by decide) (by decide) (by decide)

/-! ## C1 and C10: the fixed-window pipeline -/

theorem handleData_full_case (h : SensorDataHandler) (a g : ℚ × ℚ × ℚ)
    (accW gyroW accW2 gyroW2 : Window)
    (h1 : h.accWindow.addData a.1 a.2.1 a.2.2 = .ok accW)
    (h2 : h.gyroWindow.addData g.1 g.2.1 g.2.2 = .ok gyroW)
    (hfa : accW.isFull = true) (hfg : gyroW.isFull = true)
    (hs1 : accW.slide = .ok accW2) (hs2 : gyroW.slide = .ok gyroW2) :
    h.handleData a g =
      .ok (some ⟨accW.extractFeatures, gyroW.extractFeatures⟩,
        ⟨accW2, gyroW2⟩) := by
  unfold SensorDataHandler.handleData
  simp only [h1, h2, hfa, hfg, Bool.and_self, if_true, hs1, hs2]

theorem handleData_notfull_case (h : SensorDataHandler) (a g : ℚ × ℚ × ℚ)
    (accW gyroW : Window)
    (h1 : h.accWindow.addData a.1 a.2.1 a.2.2 = .ok accW)
    (h2 : h.gyroWindow.addData g.1 g.2.1 g.2.2 = .ok gyroW)
    (hfa : accW.isFull = false) :
    h.handleData a g = .ok (none, ⟨accW, gyroW⟩) := by
  unfold SensorDataHandler.handleData
  simp only [h1, h2, hfa, Bool.false_and, Bool.false_eq_true, if_false]

theorem handleData_step (C V L : ℕ) (hV : V < C) (hL : L < C)
    (h : SensorDataHandler) (hinv : HInv C V L h) (a g : ℚ × ℚ × ℚ) :
    ∃ o h', h.handleData a g = .ok (o, h') ∧
      ((L + 1 = C ∧ o.isSome = true ∧ HInv C V V h') ∨
       (L + 1 ≠ C ∧ o = none ∧ HInv C V (L + 1) h')) := by
  obtain ⟨hacw, hacv, hgcw, hgcv, hax, hay, haz, hgx, hgy, hgz⟩ := hinv
  have hadd1 := addData_ok h.accWindow (by rw [hax, hacw]; omega) a.1 a.2.1 a.2.2
  have hadd2 := addData_ok h.gyroWindow (by rw [hgx, hgcw]; omega) g.1 g.2.1 g.2.2
  by_cases hfull : L + 1 = C
  · have hfa := isFull_true (w := { h.accWindow with
      x := h.accWindow.x ++ [a.1]
      y := h.accWindow.y ++ [a.2.1]
      z := h.accWindow.z ++ [a.2.2] }) (by simp [hax, hacw]; omega)
    have hfg := isFull_true (w := { h.gyroWindow with
      x := h.gyroWindow.x ++ [g.1]
      y := h.gyroWindow.y ++ [g.2.1]
      z := h.gyroWindow.z ++ [g.2.2] }) (by simp [hgx, hgcw]; omega)
    have hsl1 := slide_ok { h.accWindow with
      x := h.accWindow.x ++ [a.1]
      y := h.accWindow.y ++ [a.2.1]
      z := h.accWindow.z ++ [a.2.2] } (by simp [hax, hacw]; omega)
      (by simp [hacv, hacw]; omega)
    have hsl2 := slide_ok { h.gyroWindow with
      x := h.gyroWindow.x ++ [g.1]
      y := h.gyroWindow.y ++ [g.2.1]
      z := h.gyroWindow.z ++ [g.2.2] } (by simp [hgx, hgcw]; omega)
      (by simp [hgcv, hgcw]; omega)
    rw [handleData_full_case h a g _ _ _ _ hadd1 hadd2 hfa hfg hsl1 hsl2]
    refine ⟨_, _, rfl, Or.inl ⟨hfull, rfl, ?_⟩⟩
    refine ⟨hacw, hacv, hgcw, hgcv, ?_, ?_, ?_, ?_, ?_, ?_⟩ <;>
      simp only [List.length_drop, List.length_append, List.length_cons,
        List.length_nil, hax, hay, haz, hgx, hgy, hgz, hacw, hacv, hgcw,
        hgcv] <;>
      omega
  · have hfa := isFull_false (w := { h.accWindow with
      x := h.accWindow.x ++ [a.1]
      y := h.accWindow.y ++ [a.2.1]
      z := h.accWindow.z ++ [a.2.2] }) (by simp [hax, hacw]; omega)
    rw [handleData_notfull_case h a g _ _ hadd1 hadd2 hfa]
    refine ⟨_, _, rfl, Or.inr ⟨hfull, rfl, ?_⟩⟩
    refine ⟨hacw, hacv, hgcw, hgcv, ?_, ?_, ?_, ?_, ?_, ?_⟩ <;>
      simp only [List.length_append, List.length_cons, List.length_nil,
        hax, hay, haz, hgx, hgy, hgz]

theorem handlerRun_spec (C V : ℕ) (hV : V < C) :
    ∀ (ins : List ((ℚ × ℚ × ℚ) × (ℚ × ℚ × ℚ))) (L : ℕ)
      (h : SensorDataHandler), L < C → HInv C V L h →
      ∃ outs h' L', handlerRun h ins = .ok (outs, h') ∧
        outs.length = ins.length ∧ L' < C ∧ HInv C V L' h' ∧
        ∀ k o, outs.get? k = some o →
          (o.isSome = true ↔
            (C - L ≤ k + 1 ∧ ((k + 1) - (C - L)) % (C - V) = 0)) := by
  intro ins
  induction ins with
  | nil =>
    intro L h hL hinv
    refine ⟨[], h, L, rfl, rfl, hL, hinv, ?_⟩
    intro k o hko
    cases hko
  | cons i is ih =>
    intro L h hL hinv
    obtain ⟨o, h', hstep, hcase⟩ := handleData_step C V L hV hL h hinv i.1 i.2
    rcases hcase with ⟨hfull, hsome, hinv'⟩ | ⟨hnfull, hnone, hinv'⟩
    · obtain ⟨outs, h'', L', hrun, hlen, hL', hinv'', hchar⟩ :=
        ih V h' (by omega) hinv'
      refine ⟨o :: outs, h'', L', ?_, by simp [hlen], hL', hinv'', ?_⟩
      · unfold handlerRun
        simp only [hstep, hrun]
      · intro k o' hko
        match k with
        | 0 =>
          rw [List.get?_cons_zero, Option.some.injEq] at hko
          subst hko
          have hCL : C - L = 1 := by omega
          constructor
          · intro _
            exact ⟨by omega, by rw [hCL]; simp⟩
          · intro _
            exact hsome
        | k' + 1 =>
          rw [List.get?_cons_succ] at hko
          rw [hchar k' o' hko]
          have hCL : C - L = 1 := by omega
          rw [hCL]
          have hd1 : 1 ≤ C - V := by omega
          constructor
          · rintro ⟨hdm, hmod⟩
            refine ⟨by omega, ?_⟩
            have hm : k' + 1 + 1 - 1 = (k' + 1 - (C - V)) + (C - V) := by
              omega
            rw [hm, Nat.add_mod_right]
            exact hmod
          · rintro ⟨_, hmod⟩
            have hm : k' + 1 + 1 - 1 = k' + 1 := by omega
            rw [hm] at hmod
            have hdvd : (C - V) ∣ (k' + 1) := Nat.dvd_of_mod_eq_zero hmod
            have hle : C - V ≤ k' + 1 := Nat.le_of_dvd (by omega) hdvd
            refine ⟨hle, ?_⟩
            exact Nat.dvd_iff_mod_eq_zero.mp (Nat.dvd_sub' hdvd dvd_rfl)
    · obtain ⟨outs, h'', L', hrun, hlen, hL', hinv'', hchar⟩ :=
        ih (L + 1) h' (by omega) hinv'
      refine ⟨o :: outs, h'', L', ?_, by simp [hlen], hL', hinv'', ?_⟩
      · unfold handlerRun
        simp only [hstep, hrun]
      · intro k o' hko
        match k with
        | 0 =>
          rw [List.get?_cons_zero, Option.some.injEq] at hko
          subst hko
          rw [hnone]
          simp only [Option.isSome_none, Bool.false_eq_true, false_iff]
          rintro ⟨hle, _⟩
          omega
        | k' + 1 =>
          rw [List.get?_cons_succ] at hko
          rw [hchar k' o' hko]
          have hsub : k' + 1 - (C - (L + 1)) = k' + 1 + 1 - (C - L) := by
            omega
          constructor
          · rintro ⟨hle, hmod⟩
            exact ⟨by omega, by rw [← hsub]; exact hmod⟩
          · rintro ⟨hle, hmod⟩
            exact ⟨by omega, by rw [hsub]; exact hmod⟩

/-- **C1** — for a fresh `SensorDataHandler` whose two windows share
capacity `C ≥ 1` and overlap `V < C`, every run of `handleData` calls
succeeds, and the `k`-th call (1-indexed `k = index + 1`) returns a
non-sentinel combined feature summary exactly when `k ≥ C` and
`(k - C) mod (C - V) = 0`: the sentinel (`null`) on each of the first
`C - 1` calls, a summary on the `C`-th call, and thereafter a summary
exactly every `C - V` calls, the sentinel in between. -/
theorem handleData_warmup_period (C V : ℕ) (hC : 1 ≤ C) (hV : V < C)
    (ins : List ((ℚ × ℚ × ℚ) × (ℚ × ℚ × ℚ))) :
    ∃ outs h', handlerRun (SensorDataHandler.make C V) ins = .ok (outs, h') ∧
      outs.length = ins.length ∧
      ∀ k o, outs.get? k = some o →
        (o.isSome = true ↔ (C ≤ k + 1 ∧ ((k + 1) - C) % (C - V) = 0)) := by
  have hinv0 : HInv C V 0 (SensorDataHandler.make C V) :=
    ⟨rfl, rfl, rfl, rfl, rfl, rfl, rfl, rfl, rfl, rfl⟩
  obtain ⟨outs, h', L', hrun, hlen, _, _, hchar⟩ :=
    handlerRun_spec C V hV ins 0 (SensorDataHandler.make C V) (by omega) hinv0
  refine ⟨outs, h', hrun, hlen, ?_⟩
  intro k o hko
  simpa using hchar k o hko

/-- Witness for C1 at `C = 3`, `V = 1` and a five-sample feed:
outputs appear at calls 3 and 5. -/
theorem handleData_warmup_period_witness :
    1 ≤ 3 ∧ 1 < 3 ∧
    (∃ outs h',
      handlerRun (SensorDataHandler.make 3 1) fiveSamples = .ok (outs, h') ∧
      outs.length = fiveSamples.length ∧
      ∀ k o, outs.get? k = some o →
        (o.isSome = true ↔ (3 ≤ k + 1 ∧ ((k + 1) - 3) % (3 - 1) = 0))) :=
  ⟨by decide, by decide,
    handleData_warmup_period 3 1 (by decide) (by decide) fiveSamples⟩

/-- **C10** — for every `SensorDataHandler` created with
`windowSize ≥ 1` and `0 ≤ overlapSize < windowSize`, no sequence of
`handleData` calls from the fresh handler ever throws the
capacity-violation or not-ready-to-slide errors: each run returns `.ok`,
and both windows are left with length below the capacity (so the next
`addData` succeeds as well; `slide` was invoked only inside successful
calls on full windows). -/
theorem handler_no_error (C V : ℕ) (hC : 1 ≤ C) (hV : V < C)
    (ins : List ((ℚ × ℚ × ℚ) × (ℚ × ℚ × ℚ))) :
    ∃ outs h', handlerRun (SensorDataHandler.make C V) ins = .ok (outs, h') ∧
      h'.accWindow.getLength < C ∧ h'.gyroWindow.getLength < C := by
  have hinv0 : HInv C V 0 (SensorDataHandler.make C V) :=
    ⟨rfl, rfl, rfl, rfl, rfl, rfl, rfl, rfl, rfl, rfl⟩
  obtain ⟨outs, h', L', hrun, _, hL', hinv', _⟩ :=
    handlerRun_spec C V hV ins 0 (SensorDataHandler.make C V) (by omega) hinv0
  refine ⟨outs, h', hrun, ?_, ?_⟩
  · show h'.accWindow.x.length < C
    rw [hinv'.2.2.2.2.1]
    exact hL'
  · show h'.gyroWindow.x.length < C
    rw [hinv'.2.2.2.2.2.2.2.1]
    exact hL'

/-- Witness for C10 at `C = 2`, `V = 0` and a three-sample feed. -/
theorem handler_no_error_witness :
    ∃ outs h',
      handlerRun (SensorDataHandler.make 2 0) threeSamples = .ok (outs, h') ∧
      h'.accWindow.getLength < 2 ∧ h'.gyroWindow.getLength < 2 :=
  handler_no_error 2 0 (by decide) (by decide) threeSamples

end HeadGesture
